import Mathlib

/-!
Verification development for the WHERE-TO-DINE analytic pipeline.

Shallow embedding of the core data-processing stages:
* `src/data_processing/02_merge_restaurants.py` — point deduplication,
* `src/data_processing/07_cluster_taxi_dropoffs.py` — weighted clustering
  (duplicate expansion, label resolution, validation metrics with subsampling),
* `src/data_processing/06_cluster_restaurants.py` and
  `src/analysis/clustering.py` — clustering validation metrics,
* `src/data_processing/08_spatial_intersection.py` — pairwise zone
  intersection, filtering and composite scoring.

Machine floats are modelled by `ℚ`.  External library calls (fuzzywuzzy name
similarity, sklearn silhouette / Davies-Bouldin statistics, the NumPy global
random generator, and the shapely/GEOS geometry kernel) are passed in as
explicit parameters, following the repository's own "pluggable capability"
design; concrete instances (an exact string comparator, an axis-aligned
rectangle geometry) are provided for evaluating the definitions on
concrete inputs.
-/

set_option maxHeartbeats 1000000

/-- Planar coordinates in the projected CRS (EPSG:2263, meters). -/
abbrev Q2 : Type := ℚ × ℚ

/-! ## Deduplication (02_merge_restaurants.py) -/

/-- Restaurant point record: projected position, venue name, provenance tag. -/
structure RPoint where
  pos : Q2
  name : String
  src : String
deriving DecidableEq

/-- Squared Euclidean distance.  cKDTree queries compare Euclidean distances;
throughout, a comparison `dist < t` of the code is realised as
`sqDist < t^2`, which is equivalent for a nonnegative threshold `t`. -/
def sqDist (a b : Q2) : ℚ :=
  (a.1 - b.1) ^ 2 + (a.2 - b.2) ^ 2

/-- Nearest-neighbour query of `tree.query(coord, k=1)`: the single closest
primary point together with its (squared) distance, earlier index winning
ties.  Returns `none` on an empty primary set. -/
def nearestPrimary (primary : List RPoint) (c : Q2) : Option (RPoint × ℚ) :=
  primary.foldl
    (fun acc p =>
      match acc with
      | none => some (p, sqDist p.pos c)
      | some (q, d) =>
        if sqDist p.pos c < d then some (p, sqDist p.pos c) else some (q, d))
    none

/-- Computable model of Python's `str.lower()`: lower-case every character. -/
def lowerStr (s : String) : String :=
  String.mk (s.data.map Char.toLower)

/-- Duplicate test of the loop body in `deduplicate_restaurants`: the single
nearest primary neighbour must be strictly within the distance threshold and
the lower-cased names must reach the similarity threshold (`fuzz.ratio` is
the abstract parameter `sim`). -/
def isDup (sim : String → String → ℤ) (primary : List RPoint)
    (distThreshold : ℚ) (nameThreshold : ℤ) (x : RPoint) : Bool :=
  match nearestPrimary primary x.pos with
  | none => false
  | some (pr, dsq) =>
    decide (dsq < distThreshold ^ 2) &&
      decide (nameThreshold ≤ sim (lowerStr pr.name) (lowerStr x.name))

/-- Indices collected by the `duplicates.append(idx2)` loop: positions of the
secondary points flagged as duplicates, in ascending order. -/
def duplicateIdxs (d : α → Bool) (xs : List α) : List ℕ :=
  (xs.enum.filter (fun p => d p.2)).map Prod.fst

/-- Positional drop of `gdf2_proj.drop(gdf2_proj.index[duplicates])`: keep the
elements whose position is not listed. -/
def dropIdxs (xs : List α) (is : List ℕ) : List α :=
  (xs.enum.filter (fun p => !(is.contains p.1))).map Prod.snd

/-- `deduplicate_restaurants`: flag duplicate secondary points against their
single nearest primary neighbour, drop them, and concatenate the full primary
set with the retained secondary points. -/
def deduplicateRestaurants (sim : String → String → ℤ)
    (primary secondary : List RPoint)
    (distThreshold : ℚ) (nameThreshold : ℤ) : List RPoint :=
  primary ++
    dropIdxs secondary
      (duplicateIdxs (isDup sim primary distThreshold nameThreshold) secondary)

/-- Exact-match name similarity, a concrete instance of the `fuzz.ratio`
capability used to evaluate the definitions on concrete inputs. -/
def simExact : String → String → ℤ :=
  fun a b => if a = b then 100 else 0

/-- Concrete primary point: origin, name "aaaa". -/
def primA : RPoint := ⟨(0, 0), "aaaa", "google"⟩

/-- Concrete primary point: at (3,0), name "bbbb". -/
def primB : RPoint := ⟨(3, 0), "bbbb", "google"⟩

/-- Concrete secondary point at (2,0) named "aaaa": its nearest primary is
`primB` (distance 1) which fails the name test, while the farther `primA`
(distance 2) would have matched on name. -/
def secA : RPoint := ⟨(2, 0), "aaaa", "osm"⟩

/-! ## Weighted clustering (07_cluster_taxi_dropoffs.py) -/

/-- Rounding of `np.round` on rationals: round half to even. -/
def npRound (q : ℚ) : ℤ :=
  if q - ⌊q⌋ < 1 / 2 then ⌊q⌋
  else if 1 / 2 < q - ⌊q⌋ then ⌊q⌋ + 1
  else if 2 ∣ ⌊q⌋ then ⌊q⌋ else ⌊q⌋ + 1

/-- Duplicate multiplicity of one weighted point:
`np.maximum(np.round(weights).astype(int), 1)`. -/
def copiesOf (w : ℚ) : ℕ :=
  (max (npRound w) 1).toNat

/-- `prepare_weighted_coordinates`: expand each projected point into
`max(round(w), 1)` duplicate copies (`np.repeat`). -/
def prepareWeightedCoordinates (pts : List (Q2 × ℚ)) : List Q2 :=
  pts.flatMap (fun p => List.replicate (copiesOf p.2) p.1)

/-- Sorted distinct values of `np.unique`. -/
def npUnique (g : List ℤ) : List ℤ :=
  (g.insertionSort (· ≤ ·)).dedup

/-- Occurrence counts aligned with `np.unique(·, return_counts=True)`. -/
def npCounts (g : List ℤ) : List ℕ :=
  (npUnique g).map (fun v => g.count v)

/-- First index attaining the maximum, as `np.argmax`. -/
def argmaxFirst (l : List ℕ) : ℕ :=
  l.findIdx (fun k => k = l.foldr max 0)

/-- Resolution of one duplicate group:
`unique, counts = np.unique(label_group, return_counts=True);
most_common = unique[np.argmax(counts)]`. -/
def mostCommon (g : List ℤ) : ℤ :=
  (npUnique g).getD (argmaxFirst (npCounts g)) 0

/-- Label resolution loop of `main` in 07_cluster_taxi_dropoffs.py: walk the
fitted labels in blocks of the (rounded) weights and keep each block's
`mostCommon` label. -/
def resolveLabels : List ℕ → List ℤ → List ℤ
  | [], _ => []
  | w :: ws, ls => mostCommon (ls.take w) :: resolveLabels ws (ls.drop w)

/-- Maximal occurrence count within a group. -/
def maxFreq (g : List ℤ) : ℕ :=
  (g.map (fun v => g.count v)).foldr max 0

/-- Modelled from the spec: the tie-break rule the spec describes — among the
labels of maximal count, take the one encountered first in the duplicate
group.  Used only to compare the spec's rule with the code's. -/
def mostCommonFirstEncountered (g : List ℤ) : ℤ :=
  (g.find? (fun v => g.count v = maxFreq g)).getD 0

/-! ## Clustering validation metrics (06, 07, analysis/clustering.py) -/

/-- Metrics dictionary shared by `calculate_validation_metrics` in scripts 06
and 07. -/
structure ClusterMetrics where
  silhouetteScore : Option ℚ
  daviesBouldinIndex : Option ℚ
  nClusters : ℕ
  nNoise : ℕ
  nTotal : ℕ
  pctClustered : ℚ
deriving DecidableEq

/-- Noise masking `mask = labels != -1` applied to the paired data. -/
def nonNoisePairs (coords : List Q2) (labels : List ℤ) : List (Q2 × ℤ) :=
  (coords.zip labels).filter (fun p => p.2 != -1)

/-- `len(set(labels)) - (1 if -1 in labels else 0)`. -/
def nClustersOf (labels : List ℤ) : ℕ :=
  labels.toFinset.card - (if -1 ∈ labels then 1 else 0)

/-- `(len(labels) - n_noise) / len(labels) * 100`. -/
def pctClusteredOf (labels : List ℤ) : ℚ :=
  ((labels.length : ℚ) - labels.count (-1)) / labels.length * 100

/-- `calculate_validation_metrics` of 06_cluster_restaurants.py with the
sklearn statistics `sil`, `db` passed as parameters: drop noise, and compute
both statistics only when at least two distinct clusters remain. -/
def calculateValidationMetricsR (sil db : List Q2 → List ℤ → ℚ)
    (coords : List Q2) (labels : List ℤ) : ClusterMetrics :=
  let cc := (nonNoisePairs coords labels).map Prod.fst
  let lc := (nonNoisePairs coords labels).map Prod.snd
  if 1 < lc.toFinset.card then
    { silhouetteScore := some (sil cc lc)
      daviesBouldinIndex := some (db cc lc)
      nClusters := nClustersOf labels
      nNoise := labels.count (-1)
      nTotal := labels.length
      pctClustered := pctClusteredOf labels }
  else
    { silhouetteScore := none
      daviesBouldinIndex := none
      nClusters := nClustersOf labels
      nNoise := labels.count (-1)
      nTotal := labels.length
      pctClustered := pctClusteredOf labels }

/-- Validation record of `HDBSCANClustering.validate` in
analysis/clustering.py (its fewer-than-2-clusters branch returns a dictionary
without a noise-ratio entry, hence the `Option`). -/
structure ValidationScores where
  nClusters : ℕ
  nNoise : ℕ
  silhouetteScore : Option ℚ
  daviesBouldinScore : Option ℚ
  noiseRatio : Option ℚ
deriving DecidableEq

/-- `HDBSCANClustering.validate`: exclude noise; with fewer than 2 distinct
clusters report both statistics as absent and continue. -/
def hdbscanValidate (sil db : List Q2 → List ℤ → ℚ)
    (coords : List Q2) (labels : List ℤ) : ValidationScores :=
  let cc := (nonNoisePairs coords labels).map Prod.fst
  let lc := (nonNoisePairs coords labels).map Prod.snd
  if lc.toFinset.card < 2 then
    { nClusters := lc.toFinset.card
      nNoise := labels.count (-1)
      silhouetteScore := none
      daviesBouldinScore := none
      noiseRatio := none }
  else
    { nClusters := lc.toFinset.card
      nNoise := labels.count (-1)
      silhouetteScore := some (sil cc lc)
      daviesBouldinScore := some (db cc lc)
      noiseRatio := some ((labels.count (-1) : ℚ) / labels.length) }

/-- Subsampling step of 07's `calculate_validation_metrics`: when more than
100000 non-noise points remain, index the data by
`np.random.choice(len, 100000, replace=False)`.  The NumPy global generator
is unseeded, so the chosen index list is an explicit parameter `pick`. -/
def sampledData (pick : ℕ → ℕ → List ℕ) (cc : List Q2) (lc : List ℤ) :
    List Q2 × List ℤ :=
  if 100000 < cc.length then
    ((pick cc.length 100000).map (fun i => cc.getD i ((0 : ℚ), (0 : ℚ))),
     (pick cc.length 100000).map (fun i => lc.getD i 0))
  else (cc, lc)

/-- `calculate_validation_metrics` of 07_cluster_taxi_dropoffs.py: as the 06
variant but computing the two statistics on the (possibly subsampled)
non-noise data. -/
def calculateValidationMetricsTaxi (sil db : List Q2 → List ℤ → ℚ)
    (pick : ℕ → ℕ → List ℕ)
    (coords : List Q2) (labels : List ℤ) : ClusterMetrics :=
  if 1 < ((nonNoisePairs coords labels).map Prod.snd).toFinset.card then
    { silhouetteScore := some (sil
        (sampledData pick ((nonNoisePairs coords labels).map Prod.fst)
          ((nonNoisePairs coords labels).map Prod.snd)).1
        (sampledData pick ((nonNoisePairs coords labels).map Prod.fst)
          ((nonNoisePairs coords labels).map Prod.snd)).2)
      daviesBouldinIndex := some (db
        (sampledData pick ((nonNoisePairs coords labels).map Prod.fst)
          ((nonNoisePairs coords labels).map Prod.snd)).1
        (sampledData pick ((nonNoisePairs coords labels).map Prod.fst)
          ((nonNoisePairs coords labels).map Prod.snd)).2)
      nClusters := nClustersOf labels
      nNoise := labels.count (-1)
      nTotal := labels.length
      pctClustered := pctClusteredOf labels }
  else
    { silhouetteScore := none
      daviesBouldinIndex := none
      nClusters := nClustersOf labels
      nNoise := labels.count (-1)
      nTotal := labels.length
      pctClustered := pctClusteredOf labels }

/-- Concrete silhouette stand-in: first sampled x-coordinate.  Used only to
evaluate the validation functions on concrete inputs. -/
def sil0 : List Q2 → List ℤ → ℚ :=
  fun cs _ => (cs.getD 0 ((0 : ℚ), (0 : ℚ))).1

/-- Concrete Davies-Bouldin stand-in. -/
def db0 : List Q2 → List ℤ → ℚ :=
  fun _ _ => 0

/-- One possible draw of the unseeded generator: the first `k` indices. -/
def pickA : ℕ → ℕ → List ℕ :=
  fun _ k => List.range k

/-- Another possible draw of the unseeded generator: indices 1..k. -/
def pickB : ℕ → ℕ → List ℕ :=
  fun _ k => (List.range k).map (· + 1)

/-- Concrete coordinates: 100001 points on the x-axis. -/
def coordsBig : List Q2 :=
  (List.range 100001).map (fun i : ℕ => ((i : ℚ), (0 : ℚ)))

/-- Concrete labels: two alternating clusters, no noise. -/
def labelsBig : List ℤ :=
  (List.range 100001).map (fun i : ℕ => ((i % 2 : ℕ) : ℤ))

/-! ## Spatial intersection (08_spatial_intersection.py) -/

/-- Shapely `geom_type` values relevant to the pipeline. -/
inductive GeomType where
  | point
  | lineString
  | polygon
  | multiPolygon
  | geometryCollection
deriving DecidableEq

/-- Narrow interface of the geometry capability (shapely/GEOS) used by the
intersection engine. -/
structure GeoOps (G : Type) where
  intersects : G → G → Bool
  intersection : G → G → G
  isEmptyG : G → Bool
  geomType : G → GeomType
  area : G → ℚ

/-- `geom_type in ['Polygon', 'MultiPolygon']`. -/
def isAreal : GeomType → Bool
  | .polygon => true
  | .multiPolygon => true
  | _ => false

/-- Dining zone row as consumed by the intersection engine. -/
structure DiningZone (G : Type) where
  geom : G
  clusterId : ℤ
  nRestaurants : ℕ
  avgRating : Option ℚ
deriving DecidableEq

/-- Taxi hotspot row as consumed by the intersection engine. -/
structure TaxiZone (G : Type) where
  geom : G
  hotspotId : ℤ
  nDropoffs : ℕ
  totalWeight : ℚ
deriving DecidableEq

/-- Intersection record appended by `compute_spatial_intersections`. -/
structure IntersectionCandidate (G : Type) where
  diningClusterId : ℤ
  taxiHotspotId : ℤ
  nRestaurants : ℕ
  nTaxiDropoffs : ℕ
  taxiWeight : ℚ
  avgRating : Option ℚ
  diningAreaSqm : ℚ
  taxiAreaSqm : ℚ
  intersectionAreaSqm : ℚ
  overlapRatioDining : ℚ
  overlapRatioTaxi : ℚ
  minOverlapRatio : ℚ
  geom : G
deriving DecidableEq

/-- Candidate construction from one overlapping pair, combining both zones'
attributes with the area and ratio statistics. -/
def mkCandidate (ops : GeoOps G) (d : DiningZone G) (t : TaxiZone G) (g : G) :
    IntersectionCandidate G :=
  { diningClusterId := d.clusterId
    taxiHotspotId := t.hotspotId
    nRestaurants := d.nRestaurants
    nTaxiDropoffs := t.nDropoffs
    taxiWeight := t.totalWeight
    avgRating := d.avgRating
    diningAreaSqm := ops.area d.geom
    taxiAreaSqm := ops.area t.geom
    intersectionAreaSqm := ops.area g
    overlapRatioDining := ops.area g / ops.area d.geom
    overlapRatioTaxi := ops.area g / ops.area t.geom
    minOverlapRatio :=
      min (ops.area g / ops.area d.geom) (ops.area g / ops.area t.geom)
    geom := g }

/-- `compute_spatial_intersections`: nested loop over all pairs; emit a
candidate when the geometries intersect and the intersection is a nonempty
Polygon or MultiPolygon (point/line intersections are skipped). -/
def computeSpatialIntersections (ops : GeoOps G)
    (ds : List (DiningZone G)) (ts : List (TaxiZone G)) :
    List (IntersectionCandidate G) :=
  ds.flatMap (fun d =>
    ts.filterMap (fun t =>
      if ops.intersects d.geom t.geom then
        if ops.isEmptyG (ops.intersection d.geom t.geom) then none
        else if isAreal (ops.geomType (ops.intersection d.geom t.geom)) then
          some (mkCandidate ops d t (ops.intersection d.geom t.geom))
        else none
      else none))

/-- `apply_filtering_criteria`: keep the candidates meeting both the minimum
area and the minimum overlap-ratio thresholds (after the empty-input early
return). -/
def applyFilteringCriteria (cands : List (IntersectionCandidate G))
    (minAreaSqm minOverlapRatio : ℚ) : List (IntersectionCandidate G) :=
  if cands.isEmpty then cands
  else
    cands.filter (fun c =>
      decide (minAreaSqm ≤ c.intersectionAreaSqm) &&
        decide (minOverlapRatio ≤ c.minOverlapRatio))

/-- Restaurants per square kilometre of intersection area. -/
def restDensity (c : IntersectionCandidate G) : ℚ :=
  (c.nRestaurants : ℚ) / (c.intersectionAreaSqm / 1000000)

/-- Weighted dropoffs per square kilometre of intersection area. -/
def taxiDensityOf (c : IntersectionCandidate G) : ℚ :=
  c.taxiWeight / (c.intersectionAreaSqm / 1000000)

/-- Maximum of a column, as the pandas `.max()` of a nonempty series. -/
def maxQ : List ℚ → ℚ
  | [] => 0
  | [x] => x
  | x :: y :: t => max x (maxQ (y :: t))

/-- Normalised per-axis scores: each density divided by its column maximum
and scaled to [0, 100]; 0 on an axis whose maximum is not positive. -/
def scorePair (rdMax tdMax : ℚ) (c : IntersectionCandidate G) : ℚ × ℚ :=
  (if 0 < rdMax then 100 * restDensity c / rdMax else 0,
   if 0 < tdMax then 100 * taxiDensityOf c / tdMax else 0)

/-- Hotspot row after `calculate_composite_scores`. -/
structure ScoredHotspot (G : Type) where
  cand : IntersectionCandidate G
  restaurantDensity : ℚ
  taxiDensity : ℚ
  restaurantScore : ℚ
  taxiScore : ℚ
  popularityScore : ℚ
  rank : ℕ
deriving DecidableEq

/-- `calculate_composite_scores`: densities, max-normalised per-axis scores,
the equally weighted popularity score, and a dense descending rank. -/
def calculateCompositeScores (cands : List (IntersectionCandidate G)) :
    List (ScoredHotspot G) :=
  if cands.isEmpty then [] else
    cands.map (fun c =>
      { cand := c
        restaurantDensity := restDensity c
        taxiDensity := taxiDensityOf c
        restaurantScore :=
          (scorePair (maxQ (cands.map restDensity))
            (maxQ (cands.map taxiDensityOf)) c).1
        taxiScore :=
          (scorePair (maxQ (cands.map restDensity))
            (maxQ (cands.map taxiDensityOf)) c).2
        popularityScore :=
          (1 / 2 : ℚ) * (scorePair (maxQ (cands.map restDensity))
              (maxQ (cands.map taxiDensityOf)) c).1 +
            (1 / 2 : ℚ) * (scorePair (maxQ (cands.map restDensity))
              (maxQ (cands.map taxiDensityOf)) c).2
        rank :=
          1 + ((cands.map (fun c2 =>
            (1 / 2 : ℚ) * (scorePair (maxQ (cands.map restDensity))
                (maxQ (cands.map taxiDensityOf)) c2).1 +
              (1 / 2 : ℚ) * (scorePair (maxQ (cands.map restDensity))
                (maxQ (cands.map taxiDensityOf)) c2).2)).dedup.filter
              (fun y => decide
                ((1 / 2 : ℚ) * (scorePair (maxQ (cands.map restDensity))
                    (maxQ (cands.map taxiDensityOf)) c).1 +
                  (1 / 2 : ℚ) * (scorePair (maxQ (cands.map restDensity))
                    (maxQ (cands.map taxiDensityOf)) c).2 < y))).length })

/-- Axis-aligned rational rectangle: a concrete instance of the geometry
capability, realising the GEOS semantics the engine relies on. -/
structure Rect where
  x1 : ℚ
  y1 : ℚ
  x2 : ℚ
  y2 : ℚ
deriving DecidableEq

/-- Emptiness of a rectangle: a negative span in either axis. -/
def Rect.isEmptyR (r : Rect) : Bool :=
  decide (r.x2 < r.x1) || decide (r.y2 < r.y1)

/-- Rectangle intersection. -/
def Rect.inter (a b : Rect) : Rect :=
  ⟨max a.x1 b.x1, max a.y1 b.y1, min a.x2 b.x2, min a.y2 b.y2⟩

/-- Geometry type of a rectangle: two-dimensional rectangles are polygons,
degenerate nonempty ones collapse to a segment or a point. -/
def Rect.typeOf (r : Rect) : GeomType :=
  if r.isEmptyR then .geometryCollection
  else if r.x1 < r.x2 ∧ r.y1 < r.y2 then .polygon
  else if r.x1 = r.x2 ∧ r.y1 = r.y2 then .point
  else .lineString

/-- Area of a rectangle. -/
def Rect.areaR (r : Rect) : ℚ :=
  if r.isEmptyR then 0 else (r.x2 - r.x1) * (r.y2 - r.y1)

/-- Rectangle instance of the geometry capability. -/
def rectOps : GeoOps Rect :=
  { intersects := fun a b => !(Rect.inter a b).isEmptyR
    intersection := Rect.inter
    isEmptyG := Rect.isEmptyR
    geomType := Rect.typeOf
    area := Rect.areaR }

/-- Concrete dining zone on the unit-scaled square [0,2]². -/
def dzA : DiningZone Rect := ⟨⟨0, 0, 2, 2⟩, 0, 5, none⟩

/-- Concrete taxi hotspot on [1,3]², overlapping `dzA` in [1,2]². -/
def tzA : TaxiZone Rect := ⟨⟨1, 1, 3, 3⟩, 0, 7, 3⟩

/-- Concrete candidate matching the spec's rejection scenario: intersection
area 5000 m², overlap ratios 0.25 and 1/3. -/
def candSmall : IntersectionCandidate Unit :=
  { diningClusterId := 0
    taxiHotspotId := 0
    nRestaurants := 40
    nTaxiDropoffs := 500
    taxiWeight := 500
    avgRating := none
    diningAreaSqm := 20000
    taxiAreaSqm := 15000
    intersectionAreaSqm := 5000
    overlapRatioDining := 1 / 4
    overlapRatioTaxi := 1 / 3
    minOverlapRatio := 1 / 4
    geom := () }

/-- Concrete candidate over one square kilometre, for evaluating the scoring
step. -/
def candKm : IntersectionCandidate Unit :=
  { diningClusterId := 1
    taxiHotspotId := 2
    nRestaurants := 2
    nTaxiDropoffs := 10
    taxiWeight := 3
    avgRating := some 4
    diningAreaSqm := 2000000
    taxiAreaSqm := 3000000
    intersectionAreaSqm := 1000000
    overlapRatioDining := 1 / 2
    overlapRatioTaxi := 1 / 3
    minOverlapRatio := 1 / 3
    geom := () }

/-! ## Theorems: deduplication -/

theorem mem_duplicateIdxs_iff (d : α → Bool) (xs : List α) (i : ℕ) :
    i ∈ duplicateIdxs d xs ↔ ∃ x, xs[i]? = some x ∧ d x = true := by
  unfold duplicateIdxs
  constructor
  · intro h
    rcases List.mem_map.mp h with ⟨p, hp, hfst⟩
    rcases List.mem_filter.mp hp with ⟨hpm, hpd⟩
    refine ⟨p.2, ?_, hpd⟩
    have hmem : (0 + p.1, p.2) ∈ List.enumFrom 0 xs := by simpa using hpm
    have := List.mk_add_mem_enumFrom_iff_getElem?.mp hmem
    simpa [hfst] using this
  · rintro ⟨x, hx, hd⟩
    refine List.mem_map.mpr ⟨(i, x), List.mem_filter.mpr ⟨?_, hd⟩, rfl⟩
    have : (0 + i, x) ∈ List.enumFrom 0 xs :=
      List.mk_add_mem_enumFrom_iff_getElem?.mpr hx
    simpa using this

theorem dropFrom_eq_filter (d : α → Bool) :
    ∀ (n : ℕ) (xs : List α) (I : List ℕ),
      (∀ p ∈ List.enumFrom n xs, (p.1 ∈ I ↔ d p.2 = true)) →
      ((List.enumFrom n xs).filter (fun p => !(decide (p.1 ∈ I)))).map Prod.snd =
        xs.filter (fun x => !d x) := by
  intro n xs
  induction xs generalizing n with
  | nil => intro I _; simp
  | cons y t ih =>
    intro I hI
    rw [List.enumFrom_cons]
    have hy := hI (n, y) (List.mem_cons_self _ _)
    have hTail : ∀ p ∈ List.enumFrom (n + 1) t, (p.1 ∈ I ↔ d p.2 = true) :=
      fun p hp => hI p (List.mem_cons_of_mem _ hp)
    by_cases hdy : d y = true
    · rw [List.filter_cons_of_neg (by simp [hy.mpr hdy]),
        List.filter_cons_of_neg (by simp [hdy])]
      exact ih (n + 1) I hTail
    · rw [List.filter_cons_of_pos (by simp; exact fun hmem => hdy (hy.mp hmem)),
        List.filter_cons_of_pos (by simp [Bool.eq_false_iff.mpr hdy]),
        List.map_cons, ih (n + 1) I hTail]

theorem dropIdxs_duplicateIdxs (d : α → Bool) (xs : List α) :
    dropIdxs xs (duplicateIdxs d xs) = xs.filter (fun x => !d x) := by
  unfold dropIdxs
  have hfun : (fun p : ℕ × α => !((duplicateIdxs d xs).contains p.1)) =
      (fun p : ℕ × α => !(decide (p.1 ∈ duplicateIdxs d xs))) := by
    funext p
    simp [List.contains, List.elem_eq_mem]
  rw [hfun]
  apply dropFrom_eq_filter
  intro p hp
  rw [mem_duplicateIdxs_iff]
  have hle : 0 ≤ p.1 := Nat.zero_le _
  have hget : xs[p.1]? = some p.2 := by
    have hmem : (0 + p.1, p.2) ∈ List.enumFrom 0 xs := by simpa using hp
    exact List.mk_add_mem_enumFrom_iff_getElem?.mp hmem
  constructor
  · rintro ⟨x, hx, hd⟩
    rw [hget] at hx
    injection hx with hx
    subst hx; exact hd
  · intro hd
    exact ⟨p.2, hget, hd⟩

theorem filterEnumFrom_length (d : α → Bool) :
    ∀ (n : ℕ) (xs : List α),
      ((List.enumFrom n xs).filter (fun p => d p.2)).length = (xs.filter d).length := by
  intro n xs
  induction xs generalizing n with
  | nil => simp
  | cons y t ih =>
    rw [List.enumFrom_cons]
    by_cases hdy : d y = true
    · rw [List.filter_cons_of_pos (by simpa using hdy), List.filter_cons_of_pos hdy]
      simp [ih (n + 1)]
    · rw [List.filter_cons_of_neg (by simpa using hdy), List.filter_cons_of_neg hdy]
      exact ih (n + 1)

theorem duplicateIdxs_length (d : α → Bool) (xs : List α) :
    (duplicateIdxs d xs).length = (xs.filter d).length := by
  unfold duplicateIdxs
  rw [List.length_map]
  exact filterEnumFrom_length d 0 xs

theorem length_filter_not_add (d : α → Bool) (xs : List α) :
    (xs.filter (fun x => !d x)).length + (xs.filter d).length = xs.length := by
  induction xs with
  | nil => rfl
  | cons y t ih =>
    by_cases hdy : d y = true
    · rw [List.filter_cons_of_neg (by simp [hdy]), List.filter_cons_of_pos hdy]
      simp only [List.length_cons]
      omega
    · rw [List.filter_cons_of_pos (by simp [Bool.eq_false_iff.mpr hdy]),
        List.filter_cons_of_neg hdy]
      simp only [List.length_cons]
      omega

/-- C3: a secondary point is flagged as a duplicate (and dropped) if and only
if its single nearest primary neighbour is strictly within the distance
threshold and that one neighbour's name reaches the similarity threshold;
no other primary point is consulted.  The concrete scenario certifies the
consequence: the secondary point `secA` is retained because its nearest
primary, `primB`, fails the name test, even though the second-nearest
`primA` lies within the distance threshold and matches on name. -/
theorem dedup_nearest_only_c3 :
    (∀ (sim : String → String → ℤ) (prim : List RPoint) (dt : ℚ) (nt : ℤ)
        (s : List RPoint) (i : ℕ) (x : RPoint), s[i]? = some x →
      ((i ∈ duplicateIdxs (isDup sim prim dt nt) s) ↔
        ∃ pr dsq, nearestPrimary prim x.pos = some (pr, dsq) ∧
          dsq < dt ^ 2 ∧ nt ≤ sim (lowerStr pr.name) (lowerStr x.name)))
    ∧ nearestPrimary [primA, primB] secA.pos = some (primB, 1)
    ∧ isDup simExact [primA, primB] 50 80 secA = false
    ∧ secA ∈ deduplicateRestaurants simExact [primA, primB] [secA] 50 80
    ∧ sqDist primA.pos secA.pos < 50 ^ 2
    ∧ (80 : ℤ) ≤ simExact (lowerStr primA.name) (lowerStr secA.name) := by
  constructor
  · intro sim prim dt nt s i x hx
    rw [mem_duplicateIdxs_iff]
    constructor
    · rintro ⟨x', hx', hd⟩
      rw [hx] at hx'
      injection hx' with hx'
      subst hx'
      unfold isDup at hd
      rcases h : nearestPrimary prim x.pos with _ | ⟨pr, dsq⟩
      · rw [h] at hd; cases hd
      · rw [h] at hd
        simp only [Bool.and_eq_true, decide_eq_true_eq] at hd
        exact ⟨pr, dsq, rfl, hd.1, hd.2⟩
    · rintro ⟨pr, dsq, hnear, hdist, hname⟩
      refine ⟨x, hx, ?_⟩
      unfold isDup
      rw [hnear]
      simp only [Bool.and_eq_true, decide_eq_true_eq]
      exact ⟨hdist, hname⟩
  · have hn : nearestPrimary [primA, primB] secA.pos = some (primB, 1) := by
      norm_num [nearestPrimary, sqDist, primA, primB, secA]
    have hs : simExact (lowerStr primB.name) (lowerStr secA.name) = 0 := by decide
    have hd : isDup simExact [primA, primB] 50 80 secA = false := by
      unfold isDup
      rw [hn]
      show (decide ((1 : ℚ) < 50 ^ 2) &&
        decide ((80 : ℤ) ≤ simExact (lowerStr primB.name) (lowerStr secA.name))) = false
      rw [hs]
      simp
    refine ⟨hn, hd, ?_, ?_, by decide⟩
    · unfold deduplicateRestaurants
      rw [dropIdxs_duplicateIdxs]
      refine List.mem_append_right _ ?_
      simp [hd]
    · norm_num [sqDist, primA, secA]

/-- C4: deduplication output is exactly the primary points followed by the
retained secondary points; its size is primary + secondary minus the number
of flagged duplicates, never exceeds primary + secondary, and no primary
point is ever dropped. -/
theorem dedup_output_c4 :
    ∀ (sim : String → String → ℤ) (p s : List RPoint) (dt : ℚ) (nt : ℤ),
      deduplicateRestaurants sim p s dt nt
        = p ++ s.filter (fun x => !(isDup sim p dt nt x))
      ∧ (deduplicateRestaurants sim p s dt nt).length
          + (duplicateIdxs (isDup sim p dt nt) s).length = p.length + s.length
      ∧ (deduplicateRestaurants sim p s dt nt).length
          = p.length + s.length - (duplicateIdxs (isDup sim p dt nt) s).length
      ∧ (deduplicateRestaurants sim p s dt nt).length ≤ p.length + s.length
      ∧ ∀ x ∈ p, x ∈ deduplicateRestaurants sim p s dt nt := by
  intro sim p s dt nt
  have h1 : deduplicateRestaurants sim p s dt nt
      = p ++ s.filter (fun x => !(isDup sim p dt nt x)) := by
    unfold deduplicateRestaurants
    rw [dropIdxs_duplicateIdxs]
  have hlen : (deduplicateRestaurants sim p s dt nt).length
      + (duplicateIdxs (isDup sim p dt nt) s).length = p.length + s.length := by
    rw [h1, List.length_append, duplicateIdxs_length]
    have := length_filter_not_add (isDup sim p dt nt) s
    omega
  refine ⟨h1, hlen, by omega, by omega, ?_⟩
  intro x hx
  rw [h1]
  exact List.mem_append_left _ hx

/-- Witness for C3 at the concrete configuration. -/
theorem dedup_nearest_only_c3_witness :
    (0 ∈ duplicateIdxs (isDup simExact [primA, primB] 50 80) [secA]) ↔
      ∃ pr dsq, nearestPrimary [primA, primB] secA.pos = some (pr, dsq) ∧
        dsq < (50 : ℚ) ^ 2 ∧ (80 : ℤ) ≤ simExact (lowerStr pr.name) (lowerStr secA.name) :=
  dedup_nearest_only_c3.1 simExact [primA, primB] 50 80 [secA] 0 secA rfl

/-- Witness for C4 at the concrete configuration. -/
theorem dedup_output_c4_witness :
    primA ∈ deduplicateRestaurants simExact [primA, primB] [secA] 50 80 :=
  (dedup_output_c4 simExact [primA, primB] [secA] 50 80).2.2.2.2 primA
    (List.mem_cons_self _ _)

/-! ## Theorems: weighted clustering -/

theorem foldrMaxNat_mem : ∀ (l : List ℕ), l ≠ [] → l.foldr max 0 ∈ l := by
  intro l
  induction l with
  | nil => intro h; exact absurd rfl h
  | cons x t ih =>
    intro _
    cases t with
    | nil => simp
    | cons y u =>
      rcases le_total x ((y :: u).foldr max 0) with h | h
      · rw [List.foldr_cons, max_eq_right h]
        exact List.mem_cons_of_mem _ (ih (by simp))
      · rw [List.foldr_cons, max_eq_left h]
        exact List.mem_cons_self _ _

theorem le_foldrMaxNat (l : List ℕ) : ∀ x ∈ l, x ≤ l.foldr max 0 := by
  induction l with
  | nil => intro x hx; cases hx
  | cons y t ih =>
    intro x hx
    rcases List.mem_cons.mp hx with rfl | hx
    · exact le_max_left _ _
    · exact le_trans (ih x hx) (le_max_right _ _)

theorem mem_npUnique {g : List ℤ} {v : ℤ} : v ∈ npUnique g ↔ v ∈ g := by
  unfold npUnique
  rw [List.mem_dedup, List.mem_insertionSort]

theorem npUnique_sorted (g : List ℤ) : (npUnique g).Sorted (· ≤ ·) :=
  (List.sorted_insertionSort (· ≤ ·) g).sublist (List.dedup_sublist _)

theorem npUnique_ne_nil {g : List ℤ} (h : g ≠ []) : npUnique g ≠ [] := by
  intro hu
  rcases List.exists_mem_of_ne_nil g h with ⟨v, hv⟩
  have : v ∈ npUnique g := mem_npUnique.mpr hv
  rw [hu] at this
  cases this

theorem mostCommon_spec (g : List ℤ) (hg : g ≠ []) :
    mostCommon g ∈ g
    ∧ (∀ l ∈ g, g.count l ≤ g.count (mostCommon g))
    ∧ (∀ l ∈ g, g.count l = g.count (mostCommon g) → mostCommon g ≤ l) := by
  have hu : npUnique g ≠ [] := npUnique_ne_nil hg
  have hcs : npCounts g ≠ [] := by
    unfold npCounts
    simpa using hu
  have hM : (npCounts g).foldr max 0 ∈ npCounts g := foldrMaxNat_mem _ hcs
  have hex : ∃ x ∈ npCounts g,
      (fun k => decide (k = (npCounts g).foldr max 0)) x = true :=
    ⟨(npCounts g).foldr max 0, hM, by simp⟩
  have hilt : argmaxFirst (npCounts g) < (npCounts g).length :=
    List.findIdx_lt_length_of_exists hex
  have hlen : (npCounts g).length = (npUnique g).length := by
    unfold npCounts
    exact List.length_map _ _
  have hiu : argmaxFirst (npCounts g) < (npUnique g).length := by omega
  have hmc : mostCommon g = (npUnique g).get ⟨argmaxFirst (npCounts g), hiu⟩ := by
    unfold mostCommon
    rw [List.getD_eq_getElem?_getD, List.getElem?_eq_getElem hiu]
    rfl
  have hcsget : ∀ (j : ℕ) (hj : j < (npUnique g).length),
      (npCounts g).get ⟨j, by omega⟩ = g.count ((npUnique g).get ⟨j, hj⟩) := by
    intro j hj
    unfold npCounts
    simp
  have hcnt : g.count (mostCommon g) = (npCounts g).foldr max 0 := by
    have := @List.findIdx_getElem _ (fun k => decide (k = (npCounts g).foldr max 0))
      (npCounts g) hilt
    simp only [decide_eq_true_eq] at this
    rw [hmc, ← hcsget _ hiu]
    simpa using this
  refine ⟨?_, ?_, ?_⟩
  · rw [hmc]
    exact mem_npUnique.mp (List.get_mem _ _ _)
  · intro l hl
    have hlu : l ∈ npUnique g := mem_npUnique.mpr hl
    have : g.count l ∈ npCounts g := by
      unfold npCounts
      exact List.mem_map.mpr ⟨l, hlu, rfl⟩
    rw [hcnt]
    exact le_foldrMaxNat _ _ this
  · intro l hl hcl
    have hlu : l ∈ npUnique g := mem_npUnique.mpr hl
    rcases List.getElem_of_mem hlu with ⟨j, hj, hlj⟩
    have hcj : (npCounts g).get ⟨j, by omega⟩ = (npCounts g).foldr max 0 := by
      rw [hcsget j hj]
      show g.count ((npUnique g)[j]) = _
      rw [hlj, hcl, hcnt]
    have hij : argmaxFirst (npCounts g) ≤ j := by
      by_contra hlt
      push_neg at hlt
      have := @List.not_of_lt_findIdx _
        (fun k => decide (k = (npCounts g).foldr max 0)) (npCounts g) j hlt
      rw [decide_eq_false_iff_not] at this
      exact this (by simpa using hcj)
    rw [hmc, ← hlj]
    show (npUnique g).get _ ≤ (npUnique g)[j]
    rw [show (npUnique g)[j] = (npUnique g).get ⟨j, hj⟩ from rfl]
    exact (npUnique_sorted g).rel_get_of_le (by exact hij)

theorem resolveLabels_getD :
    ∀ (ws : List ℕ) (ls : List ℤ) (i : ℕ), i < ws.length →
      (resolveLabels ws ls).getD i 0 =
        mostCommon ((ls.drop ((ws.take i).sum)).take (ws.getD i 0)) := by
  intro ws
  induction ws with
  | nil => intro ls i h; simp at h
  | cons w ws ih =>
    intro ls i h
    cases i with
    | zero => simp [resolveLabels]
    | succ i =>
      have hi : i < ws.length := by simpa using h
      show (resolveLabels ws (ls.drop w)).getD i 0 = _
      rw [ih (ls.drop w) i hi, List.take_succ_cons, List.sum_cons,
        List.drop_drop, List.getD_cons_succ]

/-- C5 (amended): each original point's resolved label is a label of maximal
count among its duplicate group's assigned labels; when several labels tie
for the maximal count, the code resolves to the numerically smallest of them
(np.unique returns labels in ascending order and np.argmax takes the first
maximum), not to the label encountered first in the group. -/
theorem resolve_labels_c5 :
    ∀ (ws : List ℕ) (ls : List ℤ) (i : ℕ), i < ws.length →
      ∀ g : List ℤ, g = (ls.drop ((ws.take i).sum)).take (ws.getD i 0) →
        g ≠ [] →
          (resolveLabels ws ls).getD i 0 = mostCommon g
          ∧ mostCommon g ∈ g
          ∧ (∀ l ∈ g, g.count l ≤ g.count (mostCommon g))
          ∧ (∀ l ∈ g, g.count l = g.count (mostCommon g) → mostCommon g ≤ l) := by
  intro ws ls i hi g hg hne
  subst hg
  refine ⟨resolveLabels_getD ws ls i hi, ?_⟩
  exact mostCommon_spec _ hne

/-- Counterexample to C5 as stated: for the single duplicate group [5, 2]
both labels tie with count 1; the first label encountered in the group is 5,
but the code resolves the group to 2. -/
theorem resolve_labels_c5_counterexample :
    resolveLabels [2] [5, 2] = [2]
    ∧ mostCommonFirstEncountered [5, 2] = 5
    ∧ (2 : ℤ) ≠ 5 :=
  ⟨by decide, by decide, by decide⟩

/-- Witness for C5 (amended) at the concrete group [5, 2]. -/
theorem resolve_labels_c5_witness :
    (resolveLabels [2] [5, 2]).getD 0 0 = mostCommon [(5 : ℤ), 2]
    ∧ mostCommon [(5 : ℤ), 2] ∈ [(5 : ℤ), 2]
    ∧ (∀ l ∈ [(5 : ℤ), 2],
        [(5 : ℤ), 2].count l ≤ [(5 : ℤ), 2].count (mostCommon [(5 : ℤ), 2]))
    ∧ (∀ l ∈ [(5 : ℤ), 2],
        [(5 : ℤ), 2].count l = [(5 : ℤ), 2].count (mostCommon [(5 : ℤ), 2]) →
          mostCommon [(5 : ℤ), 2] ≤ l) :=
  resolve_labels_c5 [2] [5, 2] 0 (by decide) [5, 2] (by decide) (by decide)

theorem npRound_ge_floor (q : ℚ) : ⌊q⌋ ≤ npRound q := by
  unfold npRound
  split_ifs <;> omega

theorem npRound_le_floor_add_one (q : ℚ) : npRound q ≤ ⌊q⌋ + 1 := by
  unfold npRound
  split_ifs <;> omega

theorem npRound_one : npRound 1 = 1 := by
  unfold npRound
  norm_num

theorem copiesOf_eq_round_max (w : ℚ) : copiesOf w = (npRound (max w 1)).toNat := by
  unfold copiesOf
  rcases le_or_lt 1 w with hw | hw
  · rw [max_eq_left hw]
    have h1 : (1 : ℤ) ≤ ⌊w⌋ := by
      rw [Int.le_floor]
      exact_mod_cast hw
    have := npRound_ge_floor w
    rw [max_eq_left (by omega)]
  · rw [max_eq_right (le_of_lt hw), npRound_one]
    have h0 : ⌊w⌋ < 1 := by
      rw [Int.floor_lt]
      exact_mod_cast hw
    have := npRound_le_floor_add_one w
    rw [max_eq_right (by omega)]

/-- C6: every weighted point is expanded into exactly round(max(w, 1))
duplicate copies, and a fractional weight below 1 yields exactly one copy
(round is NumPy's round-half-to-even). -/
theorem weighted_expansion_c6 :
    (∀ pts : List (Q2 × ℚ),
      prepareWeightedCoordinates pts =
        pts.flatMap (fun p => List.replicate (npRound (max p.2 1)).toNat p.1))
    ∧ (∀ w : ℚ, w < 1 → copiesOf w = 1)
    ∧ (∀ w : ℚ, copiesOf w = (npRound (max w 1)).toNat) := by
  refine ⟨?_, ?_, copiesOf_eq_round_max⟩
  · intro pts
    unfold prepareWeightedCoordinates
    congr 1
    funext p
    rw [copiesOf_eq_round_max]
  · intro w hw
    rw [copiesOf_eq_round_max, max_eq_right (le_of_lt hw), npRound_one]
    rfl

/-- Witness for C6 at a fractional weight below 1. -/
theorem weighted_expansion_c6_witness :
    ((1 : ℚ) / 2 < 1) ∧ copiesOf (1 / 2) = 1 :=
  ⟨by norm_num, weighted_expansion_c6.2.1 (1 / 2) (by norm_num)⟩

/-! ## Theorems: validation metrics -/

/-- C7: whenever fewer than 2 distinct clusters remain after excluding noise
points, both validation functions (script 06 and HDBSCANClustering.validate)
report the silhouette score and the Davies-Bouldin statistic as absent —
while still returning the ordinary metrics record, so the run continues. -/
theorem validation_absent_c7 :
    ∀ (sil db : List Q2 → List ℤ → ℚ) (coords : List Q2) (labels : List ℤ),
      ((nonNoisePairs coords labels).map Prod.snd).toFinset.card < 2 →
        (calculateValidationMetricsR sil db coords labels).silhouetteScore = none
        ∧ (calculateValidationMetricsR sil db coords labels).daviesBouldinIndex = none
        ∧ (calculateValidationMetricsR sil db coords labels).nTotal = labels.length
        ∧ (hdbscanValidate sil db coords labels).silhouetteScore = none
        ∧ (hdbscanValidate sil db coords labels).daviesBouldinScore = none := by
  intro sil db coords labels h
  unfold calculateValidationMetricsR hdbscanValidate
  rw [if_neg (by omega), if_pos (by omega)]
  exact ⟨rfl, rfl, rfl, rfl, rfl⟩

/-- Witness for C7: a two-point set forming a single cluster. -/
theorem validation_absent_c7_witness :
    (((nonNoisePairs [((0 : ℚ), (0 : ℚ)), (1, 1)] [0, 0]).map Prod.snd).toFinset.card < 2)
    ∧ (calculateValidationMetricsR sil0 db0 [((0 : ℚ), (0 : ℚ)), (1, 1)] [0, 0]).silhouetteScore = none
    ∧ (calculateValidationMetricsR sil0 db0 [((0 : ℚ), (0 : ℚ)), (1, 1)] [0, 0]).daviesBouldinIndex = none
    ∧ (calculateValidationMetricsR sil0 db0 [((0 : ℚ), (0 : ℚ)), (1, 1)] [0, 0]).nTotal = 2
    ∧ (hdbscanValidate sil0 db0 [((0 : ℚ), (0 : ℚ)), (1, 1)] [0, 0]).silhouetteScore = none
    ∧ (hdbscanValidate sil0 db0 [((0 : ℚ), (0 : ℚ)), (1, 1)] [0, 0]).daviesBouldinScore = none := by
  have h : ((nonNoisePairs [((0 : ℚ), (0 : ℚ)), (1, 1)] [0, 0]).map Prod.snd).toFinset.card < 2 := by
    decide
  have := validation_absent_c7 sil0 db0 [((0 : ℚ), (0 : ℚ)), (1, 1)] [0, 0] h
  exact ⟨h, this.1, this.2.1, this.2.2.1, this.2.2.2.1, this.2.2.2.2⟩

theorem nonNoisePairs_big :
    nonNoisePairs coordsBig labelsBig =
      (List.range 100001).map (fun i : ℕ => (((i : ℚ), (0 : ℚ)), ((i % 2 : ℕ) : ℤ))) := by
  unfold nonNoisePairs coordsBig labelsBig
  rw [List.zip_map']
  apply List.filter_eq_self.mpr
  intro p hp
  rcases List.mem_map.mp hp with ⟨i, _, rfl⟩
  simp only [bne_iff_ne, ne_eq, decide_eq_true_eq]
  omega

theorem ccBig :
    (nonNoisePairs coordsBig labelsBig).map Prod.fst =
      (List.range 100001).map (fun i : ℕ => ((i : ℚ), (0 : ℚ))) := by
  rw [nonNoisePairs_big, List.map_map]
  rfl

theorem lcBig :
    (nonNoisePairs coordsBig labelsBig).map Prod.snd =
      (List.range 100001).map (fun i : ℕ => ((i % 2 : ℕ) : ℤ)) := by
  rw [nonNoisePairs_big, List.map_map]
  rfl

theorem lcBig_toFinset :
    (((nonNoisePairs coordsBig labelsBig).map Prod.snd).toFinset : Finset ℤ) = {0, 1} := by
  rw [lcBig]
  apply Finset.ext
  intro x
  rw [List.mem_toFinset, List.mem_map]
  simp only [List.mem_range, Finset.mem_insert, Finset.mem_singleton]
  constructor
  · rintro ⟨i, _, rfl⟩
    rcases Nat.mod_two_eq_zero_or_one i with h | h <;> simp [h]
  · rintro (rfl | rfl)
    · exact ⟨0, by norm_num, by norm_num⟩
    · exact ⟨1, by norm_num, by norm_num⟩

theorem ccBig_length :
    ((nonNoisePairs coordsBig labelsBig).map Prod.fst).length = 100001 := by
  rw [ccBig, List.length_map, List.length_range]

theorem metricsBig_silhouette (pick : ℕ → ℕ → List ℕ) :
    (calculateValidationMetricsTaxi sil0 db0 pick coordsBig labelsBig).silhouetteScore =
      some ((((pick 100001 100000).map
        (fun i => ((nonNoisePairs coordsBig labelsBig).map Prod.fst).getD i
          ((0 : ℚ), (0 : ℚ)))).getD 0 ((0 : ℚ), (0 : ℚ))).1) := by
  unfold calculateValidationMetricsTaxi
  rw [if_pos (by rw [lcBig_toFinset]; decide)]
  unfold sampledData
  rw [if_pos (by rw [ccBig_length]; omega), ccBig_length]
  rfl

/-- Counterexample to C9 as stated: on 100001 clustered points, two draws of
the unseeded NumPy generator (indices 0..99999 versus 1..100000) lead the
same validation computation to different silhouette values, so the
subsampled metrics are not deterministic across runs. -/
theorem validation_sampling_c9_counterexample :
    calculateValidationMetricsTaxi sil0 db0 pickA coordsBig labelsBig ≠
      calculateValidationMetricsTaxi sil0 db0 pickB coordsBig labelsBig := by
  intro heq
  have hA := metricsBig_silhouette pickA
  have hB := metricsBig_silhouette pickB
  have hgA :
      (((pickA 100001 100000).map
        (fun i => ((nonNoisePairs coordsBig labelsBig).map Prod.fst).getD i
          ((0 : ℚ), (0 : ℚ)))).getD 0 ((0 : ℚ), (0 : ℚ))) = ((0 : ℚ), (0 : ℚ)) := by
    rw [List.getD_eq_getElem?_getD, List.getElem?_map]
    rw [show pickA 100001 100000 = List.range 100000 from rfl]
    rw [List.getElem?_range (by norm_num)]
    simp only [Option.map_some', Option.getD_some]
    rw [ccBig, List.getD_eq_getElem?_getD, List.getElem?_map,
      List.getElem?_range (by norm_num)]
    rfl
  have hgB :
      (((pickB 100001 100000).map
        (fun i => ((nonNoisePairs coordsBig labelsBig).map Prod.fst).getD i
          ((0 : ℚ), (0 : ℚ)))).getD 0 ((0 : ℚ), (0 : ℚ))) = ((1 : ℚ), (0 : ℚ)) := by
    rw [List.getD_eq_getElem?_getD, List.getElem?_map]
    rw [show pickB 100001 100000 = (List.range 100000).map (· + 1) from rfl]
    rw [List.getElem?_map, List.getElem?_range (by norm_num)]
    simp only [Option.map_some', Option.getD_some]
    rw [ccBig, List.getD_eq_getElem?_getD, List.getElem?_map,
      List.getElem?_range (by norm_num)]
    rfl
  have h := congrArg ClusterMetrics.silhouetteScore heq
  rw [hA, hB, hgA, hgB] at h
  simp only [Option.some_inj] at h
  norm_num at h

/-- C9 (amended): the validation computation of script 07 subsamples only
when more than 100000 non-noise points remain; with at most 100000 non-noise
points no subsample is drawn and the result does not depend on the random
generator, so only then are two runs guaranteed to produce identical
silhouette and Davies-Bouldin values. -/
theorem validation_sampling_c9 :
    ∀ (sil db : List Q2 → List ℤ → ℚ) (p q : ℕ → ℕ → List ℕ)
      (coords : List Q2) (labels : List ℤ),
      (nonNoisePairs coords labels).length ≤ 100000 →
        calculateValidationMetricsTaxi sil db p coords labels =
          calculateValidationMetricsTaxi sil db q coords labels := by
  intro sil db p q coords labels h
  have hlen : ((nonNoisePairs coords labels).map Prod.fst).length ≤ 100000 := by
    rw [List.length_map]
    exact h
  have hs : ∀ r : ℕ → ℕ → List ℕ,
      sampledData r ((nonNoisePairs coords labels).map Prod.fst)
        ((nonNoisePairs coords labels).map Prod.snd) =
      (((nonNoisePairs coords labels).map Prod.fst),
        ((nonNoisePairs coords labels).map Prod.snd)) := by
    intro r
    unfold sampledData
    rw [if_neg (by omega)]
  unfold calculateValidationMetricsTaxi
  rw [hs p, hs q]

/-- Witness for C9 (amended): on a small two-cluster input the two generator
draws give identical metrics. -/
theorem validation_sampling_c9_witness :
    ((nonNoisePairs [((0 : ℚ), (0 : ℚ)), (5, 5)] [0, 1]).length ≤ 100000)
    ∧ calculateValidationMetricsTaxi sil0 db0 pickA
        [((0 : ℚ), (0 : ℚ)), (5, 5)] [0, 1] =
      calculateValidationMetricsTaxi sil0 db0 pickB
        [((0 : ℚ), (0 : ℚ)), (5, 5)] [0, 1] :=
  ⟨by decide,
    validation_sampling_c9 sil0 db0 pickA pickB
      [((0 : ℚ), (0 : ℚ)), (5, 5)] [0, 1] (by decide)⟩

/-! ## Theorems: spatial intersection -/

theorem mem_computeSpatialIntersections {G : Type} (ops : GeoOps G)
    (ds : List (DiningZone G)) (ts : List (TaxiZone G))
    (c : IntersectionCandidate G) :
    c ∈ computeSpatialIntersections ops ds ts ↔
      ∃ d ∈ ds, ∃ t ∈ ts,
        ops.intersects d.geom t.geom = true ∧
        ops.isEmptyG (ops.intersection d.geom t.geom) = false ∧
        isAreal (ops.geomType (ops.intersection d.geom t.geom)) = true ∧
        c = mkCandidate ops d t (ops.intersection d.geom t.geom) := by
  unfold computeSpatialIntersections
  rw [List.mem_flatMap]
  constructor
  · rintro ⟨d, hd, hc⟩
    rcases List.mem_filterMap.mp hc with ⟨t, ht, hsome⟩
    refine ⟨d, hd, t, ht, ?_⟩
    by_cases h1 : ops.intersects d.geom t.geom = true
    · rw [if_pos h1] at hsome
      by_cases h2 : ops.isEmptyG (ops.intersection d.geom t.geom) = true
      · rw [if_pos h2] at hsome
        cases hsome
      · rw [if_neg h2] at hsome
        by_cases h3 : isAreal (ops.geomType (ops.intersection d.geom t.geom)) = true
        · rw [if_pos h3] at hsome
          injection hsome with hsome
          exact ⟨h1, by simpa using h2, h3, hsome.symm⟩
        · rw [if_neg h3] at hsome
          cases hsome
    · rw [if_neg h1] at hsome
      cases hsome
  · rintro ⟨d, hd, t, ht, h1, h2, h3, hc⟩
    refine ⟨d, hd, List.mem_filterMap.mpr ⟨t, ht, ?_⟩⟩
    rw [if_pos h1, if_neg (by simp [h2]), if_pos h3, hc]

/-- C2: the engine emits a candidate for a pair exactly when the two
geometries intersect in a nonempty Polygon or MultiPolygon (line and point
intersections are discarded), and the emitted record carries the two
one-directional overlap ratios and their minimum, computed from the
intersection area and the two source areas. -/
theorem intersection_emit_c2 :
    (∀ (G : Type) (ops : GeoOps G) (ds : List (DiningZone G))
        (ts : List (TaxiZone G)) (c : IntersectionCandidate G),
      c ∈ computeSpatialIntersections ops ds ts ↔
        ∃ d ∈ ds, ∃ t ∈ ts,
          ops.intersects d.geom t.geom = true ∧
          ops.isEmptyG (ops.intersection d.geom t.geom) = false ∧
          isAreal (ops.geomType (ops.intersection d.geom t.geom)) = true ∧
          c = mkCandidate ops d t (ops.intersection d.geom t.geom))
    ∧ (∀ (G : Type) (ops : GeoOps G) (d : DiningZone G) (t : TaxiZone G) (g : G),
        (mkCandidate ops d t g).intersectionAreaSqm = ops.area g ∧
        (mkCandidate ops d t g).diningAreaSqm = ops.area d.geom ∧
        (mkCandidate ops d t g).taxiAreaSqm = ops.area t.geom ∧
        (mkCandidate ops d t g).overlapRatioDining = ops.area g / ops.area d.geom ∧
        (mkCandidate ops d t g).overlapRatioTaxi = ops.area g / ops.area t.geom ∧
        (mkCandidate ops d t g).minOverlapRatio =
          min ((mkCandidate ops d t g).overlapRatioDining)
            ((mkCandidate ops d t g).overlapRatioTaxi)) :=
  ⟨fun _ ops ds ts c => mem_computeSpatialIntersections ops ds ts c,
   fun _ _ _ _ _ => ⟨rfl, rfl, rfl, rfl, rfl, rfl⟩⟩

/-- C10: every emitted candidate has positive intersection area, both overlap
ratios in (0, 1], and a minimum ratio bounded by each ratio — granted the
geometry kernel's guarantee that a nonempty polygonal intersection has
positive area no larger than either operand's area. -/
theorem candidate_invariants_c10 :
    ∀ (G : Type) (ops : GeoOps G) (ds : List (DiningZone G))
      (ts : List (TaxiZone G)),
      (∀ d ∈ ds, ∀ t ∈ ts,
        ops.isEmptyG (ops.intersection d.geom t.geom) = false →
        isAreal (ops.geomType (ops.intersection d.geom t.geom)) = true →
          0 < ops.area (ops.intersection d.geom t.geom) ∧
          ops.area (ops.intersection d.geom t.geom) ≤ ops.area d.geom ∧
          ops.area (ops.intersection d.geom t.geom) ≤ ops.area t.geom) →
      ∀ c ∈ computeSpatialIntersections ops ds ts,
        0 < c.intersectionAreaSqm ∧
        0 < c.overlapRatioDining ∧ c.overlapRatioDining ≤ 1 ∧
        0 < c.overlapRatioTaxi ∧ c.overlapRatioTaxi ≤ 1 ∧
        c.minOverlapRatio ≤ c.overlapRatioDining ∧
        c.minOverlapRatio ≤ c.overlapRatioTaxi := by
  intro G ops ds ts hgeo c hc
  rcases (mem_computeSpatialIntersections ops ds ts c).mp hc with
    ⟨d, hd, t, ht, _, h2, h3, rfl⟩
  rcases hgeo d hd t ht h2 h3 with ⟨hpos, hled, hlet⟩
  have hdpos : 0 < ops.area d.geom := lt_of_lt_of_le hpos hled
  have htpos : 0 < ops.area t.geom := lt_of_lt_of_le hpos hlet
  refine ⟨hpos, div_pos hpos hdpos, (div_le_one hdpos).mpr hled,
    div_pos hpos htpos, (div_le_one htpos).mpr hlet, min_le_left _ _,
    min_le_right _ _⟩

/-- Witness for C10 with the rectangle geometry: the dining square [0,2]²
and the taxi square [1,3]² overlap in the unit square [1,2]². -/
theorem candidate_invariants_c10_witness :
    (∀ d ∈ [dzA], ∀ t ∈ [tzA],
      rectOps.isEmptyG (rectOps.intersection d.geom t.geom) = false →
      isAreal (rectOps.geomType (rectOps.intersection d.geom t.geom)) = true →
        0 < rectOps.area (rectOps.intersection d.geom t.geom) ∧
        rectOps.area (rectOps.intersection d.geom t.geom) ≤ rectOps.area d.geom ∧
        rectOps.area (rectOps.intersection d.geom t.geom) ≤ rectOps.area t.geom)
    ∧ ∀ c ∈ computeSpatialIntersections rectOps [dzA] [tzA],
        0 < c.intersectionAreaSqm ∧
        0 < c.overlapRatioDining ∧ c.overlapRatioDining ≤ 1 ∧
        0 < c.overlapRatioTaxi ∧ c.overlapRatioTaxi ≤ 1 ∧
        c.minOverlapRatio ≤ c.overlapRatioDining ∧
        c.minOverlapRatio ≤ c.overlapRatioTaxi := by
  have hgeo : ∀ d ∈ [dzA], ∀ t ∈ [tzA],
      rectOps.isEmptyG (rectOps.intersection d.geom t.geom) = false →
      isAreal (rectOps.geomType (rectOps.intersection d.geom t.geom)) = true →
        0 < rectOps.area (rectOps.intersection d.geom t.geom) ∧
        rectOps.area (rectOps.intersection d.geom t.geom) ≤ rectOps.area d.geom ∧
        rectOps.area (rectOps.intersection d.geom t.geom) ≤ rectOps.area t.geom := by
    intro d hd t ht _ _
    rcases List.mem_singleton.mp hd with rfl
    rcases List.mem_singleton.mp ht with rfl
    norm_num [rectOps, dzA, tzA, Rect.inter, Rect.isEmptyR, Rect.areaR]
  exact ⟨hgeo, candidate_invariants_c10 Rect rectOps [dzA] [tzA] hgeo⟩

/-- C1: the filtering step retains a candidate if and only if it meets both
the minimum-area and the minimum-overlap-ratio thresholds (conjunction); the
spec's concrete candidate (area 5000 m², min ratio 0.25) is rejected under
thresholds (10000, 0.15) even though it passes the ratio test. -/
theorem filtering_conjunction_c1 :
    (∀ (G : Type) (cands : List (IntersectionCandidate G))
        (minArea minRatio : ℚ) (c : IntersectionCandidate G),
      c ∈ applyFilteringCriteria cands minArea minRatio ↔
        (c ∈ cands ∧ minArea ≤ c.intersectionAreaSqm ∧
          minRatio ≤ c.minOverlapRatio))
    ∧ ((15 : ℚ) / 100 ≤ candSmall.minOverlapRatio)
    ∧ applyFilteringCriteria [candSmall] 10000 (15 / 100) = [] := by
  refine ⟨?_, ?_, ?_⟩
  · intro G cands minArea minRatio c
    unfold applyFilteringCriteria
    by_cases hemp : cands.isEmpty = true
    · rw [if_pos hemp]
      rw [List.isEmpty_iff.mp hemp]
      simp
    · rw [if_neg hemp, List.mem_filter]
      simp only [Bool.and_eq_true, decide_eq_true_eq]
  · show (15 : ℚ) / 100 ≤ 1 / 4
    norm_num
  · unfold applyFilteringCriteria
    rw [if_neg (by simp)]
    rw [List.filter_eq_nil_iff]
    intro a ha
    rcases List.mem_singleton.mp ha with rfl
    simp only [Bool.and_eq_true, decide_eq_true_eq, not_and]
    intro h
    exfalso
    have : (10000 : ℚ) ≤ 5000 := h
    norm_num at this

theorem le_maxQ : ∀ (l : List ℚ), ∀ x ∈ l, x ≤ maxQ l := by
  intro l
  induction l with
  | nil => intro x hx; cases hx
  | cons y t ih =>
    intro x hx
    cases t with
    | nil =>
      rcases List.mem_singleton.mp hx with rfl
      exact le_refl _
    | cons z u =>
      rcases List.mem_cons.mp hx with rfl | hx
      · exact le_max_left _ _
      · exact le_trans (ih x hx) (le_max_right _ _)

/-- C8: for candidates with positive intersection area and nonnegative taxi
weight, every scored hotspot's popularity and per-axis scores lie in
[0, 100]; a candidate attaining a positive axis maximum scores exactly 100
on that axis; a zero axis maximum zeroes that axis for every candidate; and
the popularity score is the equal-weight average of the two axis scores. -/
theorem composite_scores_c8 :
    ∀ (G : Type) (cands : List (IntersectionCandidate G)),
      (∀ c ∈ cands, 0 < c.intersectionAreaSqm ∧ 0 ≤ c.taxiWeight) →
      ∀ sh ∈ calculateCompositeScores cands,
        (0 ≤ sh.popularityScore ∧ sh.popularityScore ≤ 100)
        ∧ (0 ≤ sh.restaurantScore ∧ sh.restaurantScore ≤ 100)
        ∧ (0 ≤ sh.taxiScore ∧ sh.taxiScore ≤ 100)
        ∧ (0 < maxQ (cands.map restDensity) →
            sh.restaurantDensity = maxQ (cands.map restDensity) →
            sh.restaurantScore = 100)
        ∧ (maxQ (cands.map restDensity) = 0 → sh.restaurantScore = 0)
        ∧ (0 < maxQ (cands.map taxiDensityOf) →
            sh.taxiDensity = maxQ (cands.map taxiDensityOf) →
            sh.taxiScore = 100)
        ∧ (maxQ (cands.map taxiDensityOf) = 0 → sh.taxiScore = 0)
        ∧ sh.popularityScore =
            (1 / 2) * sh.restaurantScore + (1 / 2) * sh.taxiScore := by
  intro G cands hpos sh hsh
  unfold calculateCompositeScores at hsh
  by_cases hemp : cands.isEmpty = true
  · rw [if_pos hemp] at hsh
    cases hsh
  · rw [if_neg hemp] at hsh
    rcases List.mem_map.mp hsh with ⟨c, hc, rfl⟩
    rcases hpos c hc with ⟨hareapos, hwt⟩
    have harea : (0 : ℚ) < c.intersectionAreaSqm / 1000000 :=
      div_pos hareapos (by norm_num)
    have hrd0 : 0 ≤ restDensity c := by
      unfold restDensity
      exact div_nonneg (Nat.cast_nonneg _) (le_of_lt harea)
    have htd0 : 0 ≤ taxiDensityOf c := by
      unfold taxiDensityOf
      exact div_nonneg hwt (le_of_lt harea)
    have hrdle : restDensity c ≤ maxQ (cands.map restDensity) :=
      le_maxQ _ _ (List.mem_map.mpr ⟨c, hc, rfl⟩)
    have htdle : taxiDensityOf c ≤ maxQ (cands.map taxiDensityOf) :=
      le_maxQ _ _ (List.mem_map.mpr ⟨c, hc, rfl⟩)
    have hb : ∀ (m d : ℚ), 0 ≤ d → d ≤ m →
        0 ≤ (if 0 < m then 100 * d / m else 0) ∧
          (if 0 < m then 100 * d / m else 0) ≤ 100 := by
      intro m d hd hdm
      by_cases hm : 0 < m
      · rw [if_pos hm]
        constructor
        · positivity
        · rw [div_le_iff₀ hm]
          nlinarith
      · rw [if_neg hm]
        norm_num
    have hrs := hb _ _ hrd0 hrdle
    have hts := hb _ _ htd0 htdle
    have h100 : ∀ (m d : ℚ), 0 < m → d = m →
        (if 0 < m then 100 * d / m else 0) = 100 := by
      intro m d hm hdm
      rw [if_pos hm, hdm, mul_div_assoc, div_self (ne_of_gt hm), mul_one]
    have h0 : ∀ (m d : ℚ), m = 0 →
        (if 0 < m then 100 * d / m else 0) = 0 := by
      intro m d hm
      rw [hm]
      norm_num
    refine ⟨⟨?_, ?_⟩, hrs, hts, ?_, ?_, ?_, ?_, rfl⟩
    · show 0 ≤ (1 / 2 : ℚ) * (scorePair _ _ c).1 + (1 / 2 : ℚ) * (scorePair _ _ c).2
      have h1 := hrs.1
      have h2 := hts.1
      unfold scorePair
      nlinarith
    · show (1 / 2 : ℚ) * (scorePair _ _ c).1 + (1 / 2 : ℚ) * (scorePair _ _ c).2 ≤ 100
      have h1 := hrs.2
      have h2 := hts.2
      unfold scorePair
      nlinarith
    · intro hm hdm
      exact h100 _ _ hm hdm
    · intro hm
      exact h0 _ _ hm
    · intro hm hdm
      exact h100 _ _ hm hdm
    · intro hm
      exact h0 _ _ hm

/-- Witness for C8 at a concrete one-candidate collection. -/
theorem composite_scores_c8_witness :
    (∀ c ∈ [candKm], 0 < c.intersectionAreaSqm ∧ 0 ≤ c.taxiWeight)
    ∧ ∀ sh ∈ calculateCompositeScores [candKm],
        (0 ≤ sh.popularityScore ∧ sh.popularityScore ≤ 100)
        ∧ (0 ≤ sh.restaurantScore ∧ sh.restaurantScore ≤ 100)
        ∧ (0 ≤ sh.taxiScore ∧ sh.taxiScore ≤ 100)
        ∧ (0 < maxQ ([candKm].map restDensity) →
            sh.restaurantDensity = maxQ ([candKm].map restDensity) →
            sh.restaurantScore = 100)
        ∧ (maxQ ([candKm].map restDensity) = 0 → sh.restaurantScore = 0)
        ∧ (0 < maxQ ([candKm].map taxiDensityOf) →
            sh.taxiDensity = maxQ ([candKm].map taxiDensityOf) →
            sh.taxiScore = 100)
        ∧ (maxQ ([candKm].map taxiDensityOf) = 0 → sh.taxiScore = 0)
        ∧ sh.popularityScore =
            (1 / 2) * sh.restaurantScore + (1 / 2) * sh.taxiScore := by
  have hpos : ∀ c ∈ [candKm], 0 < c.intersectionAreaSqm ∧ 0 ≤ c.taxiWeight := by
    intro c hcm
    rcases List.mem_singleton.mp hcm with rfl
    norm_num [candKm]
  exact ⟨hpos, composite_scores_c8 Unit [candKm] hpos⟩
